import Mathlib

/-!
Verification development for the Galapago-FWK analysis framework
(`include/Sample_coffea.py`, `include/Sample.py`).

The embedding models the Sample/Block/Tree bookkeeping code of the
repository.  Events are drawn from an arbitrary type `α`; the per-event
fields the Python code reads (`genWeight`, the variables mentioned in cut
strings) become functions out of `α`, and the awkward-array event
collection becomes a `List α`.  Machine floats become exact rationals
(`ℚ`); the one place the code can divide by zero (`xSection /
sum_genweight` in `_setupWeights`) is modelled as an explicit
`Except.error`, matching Python's `ZeroDivisionError`.  Square roots
(the uncertainty returned by `getYield`) are kept in squared form inside
the executable definitions and related to `Real.sqrt` in the theorems.

External effects are modelled as explicit inputs: the outcome of the
`dasgoclient` subprocess is an inductive `DASOutcome`, the result of
loading one ROOT file is an oracle `String → Option (List α)` (`none`
models the caught per-file exception), and glob / os.walk results are
the lists of paths they would return, in traversal order.
-/

namespace Galapago

/-- Constant `XROOTD_REDIRECTOR` from `Sample_coffea.py` / `Sample.py`. -/
def XROOTD_REDIRECTOR : String := "root://cms-xrd-global.cern.ch/"

/-- Outcome of running the `dasgoclient` subprocess in `queryDAS`
(`Sample_coffea.py` lines 20-47, identical in `Sample.py` lines 15-43):
either it succeeds with some stdout, raises `CalledProcessError`, or the
executable is missing (`FileNotFoundError`). -/
inductive DASOutcome where
  | success (stdout : String)
  | calledProcessError (stderr : String)
  | fileNotFoundError
deriving DecidableEq

/-- Function `queryDAS` (`Sample_coffea.py` lines 20-47).  On success it splits
stdout on newlines, drops empty lines and maps each logical file name to
an xrootd URL.  Both exception handlers print a message and `return []`;
the function never propagates an exception, which the `Except` result
type makes visible: every branch is `Except.ok`. -/
def queryDAS (outcome : DASOutcome) : Except String (List String) :=
  match outcome with
  | DASOutcome.success stdout =>
      Except.ok (((stdout.trim.splitOn "\n").filter (fun f => f ≠ "")).map
        (fun f => XROOTD_REDIRECTOR ++ f))
  | DASOutcome.calledProcessError _ => Except.ok []
  | DASOutcome.fileNotFoundError => Except.ok []

/-- The coffea-backed `Sample` of `Sample_coffea.py`.  `events` is the
concatenated awkward array; `eventWeight` is the per-event weight column
added by `_setupWeights`; `lumWeight` is the normalization factor
`xSection / sum_genweight` (the local `lum_weight` of `_setupWeights`,
stored as the `lumWeight` column in `Sample.py` line 105).  `selections`
is the list of cut predicates, in insertion order. -/
structure Sample (α : Type) where
  isData : Bool
  xSection : ℚ
  file_paths : List String
  events : List α
  selections : List (α → Bool)
  sum_genweight : ℚ
  nevents : ℕ
  eventWeight : α → ℚ
  lumWeight : ℚ

/-- Method `Sample._loadEvents` (`Sample_coffea.py` lines 135-164).
`cachedFiles` is the list returned by `getCachedDASFiles`; `loadFile`
models `NanoEventsFactory.from_root(...).events()` per file, `none`
being the caught exception (the file is skipped with a warning).  Raises
when no file resolves, and when no file at all could be loaded;
otherwise returns the kept paths and the concatenation of the
successfully loaded per-file event lists. -/
def loadEvents (cachedFiles : List String) (file_limit : ℕ)
    (loadFile : String → Option (List α)) :
    Except String (List String × List α) :=
  let paths := if file_limit > 0 then cachedFiles.take file_limit else cachedFiles
  if paths.isEmpty then Except.error "No files found for dataset"
  else
    let arrays := paths.filterMap loadFile
    if arrays.isEmpty then Except.error "Could not load any events"
    else Except.ok (paths, arrays.flatten)

/-- Method `Sample._setupWeights` (`Sample_coffea.py` lines 166-186).  For MC it
computes `sum_genweight = Σ genWeight`, `lum_weight = xSection /
sum_genweight` and the per-event column `eventWeight = genWeight *
lum_weight`; the division raises `ZeroDivisionError` when the sum is
exactly zero.  For data it sets `sum_genweight` to the event count and a
unit `eventWeight`.  Returns `(sum_genweight, lum_weight, eventWeight)`. -/
def setupWeights (genWeight : α → ℚ) (xSection : ℚ) (isdata : Bool)
    (events : List α) : Except String (ℚ × ℚ × (α → ℚ)) :=
  if isdata = false then
    let s := (events.map genWeight).sum
    if s = 0 then Except.error "ZeroDivisionError: float division by zero"
    else Except.ok (s, xSection / s, fun e => genWeight e * (xSection / s))
  else
    Except.ok ((events.length : ℚ), 1, fun _ => 1)

/-- Constructor `Sample.__init__` (`Sample_coffea.py` lines 99-133): `_loadEvents`
followed by `_setupWeights`; any exception from either stage aborts
construction.  The sample starts with an empty selection list. -/
def mkSample (isdata : Bool) (xsection : ℚ) (cachedFiles : List String)
    (file_limit : ℕ) (loadFile : String → Option (List α))
    (genWeight : α → ℚ) : Except String (Sample α) :=
  match loadEvents cachedFiles file_limit loadFile with
  | Except.error e => Except.error e
  | Except.ok (paths, evs) =>
    match setupWeights genWeight xsection isdata evs with
    | Except.error e => Except.error e
    | Except.ok (sgw, lw, ew) =>
        Except.ok { isData := isdata, xSection := xsection, file_paths := paths,
                    events := evs, selections := [], sum_genweight := sgw,
                    nevents := evs.length, eventWeight := ew, lumWeight := lw }

/-- Method `Sample.addSelection` (`Sample_coffea.py` lines 188-197): appends the
cut to the selection list (the Python method also returns `self`). -/
def Sample.addSelection (s : Sample α) (cut : α → Bool) : Sample α :=
  { s with selections := s.selections ++ [cut] }

/-- Method `Sample.clearSelections` (`Sample_coffea.py` lines 199-202). -/
def Sample.clearSelections (s : Sample α) : Sample α :=
  { s with selections := [] }

/-- Method `Sample._applySelections` (`Sample_coffea.py` lines 204-213): starts
from the full event collection and, for each cut in insertion order,
evaluates the cut against the current (already narrowed) view and keeps
the events it accepts. -/
def Sample.applySelections (s : Sample α) : List α :=
  s.selections.foldl (fun events cut => events.filter cut) s.events

/-- The per-event weights summed by `Sample.getYield`
(`Sample_coffea.py` lines 304-325): after the selections, a unit weight
per selected event for data (`ak.ones_like(events.event)`), and
`eventWeight * lumi` for MC. -/
def Sample.yieldWeights (s : Sample α) (lumi : ℚ) : List ℚ :=
  let events := s.applySelections
  if s.isData then events.map (fun _ => (1 : ℚ))
  else events.map (fun e => s.eventWeight e * lumi)

/-- Method `Sample.getYield` (`Sample_coffea.py` lines 304-325) with the final
square root left in squared form: the code returns
`(sum weights, sqrt (sum weights²))`; this definition returns
`(sum weights, sum weights²)` so that it stays executable over `ℚ`.  The
theorems relate the second component to the code's uncertainty through
`Real.sqrt`. -/
def Sample.getYieldSq (s : Sample α) (lumi : ℚ) : ℚ × ℚ :=
  ((s.yieldWeights lumi).sum, ((s.yieldWeights lumi).map (fun w => w * w)).sum)

/-- The per-event weights passed to `h.fill` by `Sample.getHist`
(`Sample_coffea.py` lines 215-254) when no explicit weight expression is
given: `ak.ones_like(values)` for data, `events.eventWeight * lumi` for
MC. -/
def Sample.histWeights (s : Sample α) (lumi : ℚ) : List ℚ :=
  let events := s.applySelections
  if s.isData then events.map (fun _ => (1 : ℚ))
  else events.map (fun e => s.eventWeight e * lumi)

/-- A 1D histogram with `Weight` storage (`hist.Hist` in
`Sample_coffea.py`, `TH1F` with `Sumw2` in `Sample.py`): the axis range
and, per bin, the weighted sum `contents` and the sum of squared weights
`sumw2` (so a bin's uncertainty is `Real.sqrt` of its `sumw2` entry). -/
structure Histo where
  lo : ℚ
  hi : ℚ
  contents : List ℚ
  sumw2 : List ℚ
deriving DecidableEq

/-- Two histograms have the same binning: same axis range and the same
number of bins.  Histogram addition in `hist` (and `TH1::Add` in ROOT)
is only meaningful under this condition. -/
def sameBinning (a b : Histo) : Prop :=
  a.lo = b.lo ∧ a.hi = b.hi ∧ a.contents.length = b.contents.length ∧
    a.sumw2.length = b.sumw2.length

instance (a b : Histo) : Decidable (sameBinning a b) := by
  unfold sameBinning; infer_instance

/-- Histogram `+` as used by `combineHistograms` (`Sample_coffea.py`
lines 417-434) and by `h.Add(haux)` in `Block.getTH1F` (`Sample.py`
lines 273-290): bin-wise sum of contents and of the squared-error terms;
the axis is taken from the left operand. -/
def Histo.add (a b : Histo) : Histo :=
  { lo := a.lo, hi := a.hi,
    contents := List.zipWith (fun x y => x + y) a.contents b.contents,
    sumw2 := List.zipWith (fun x y => x + y) a.sumw2 b.sumw2 }

/-- Function `combineHistograms` (`Sample_coffea.py` lines 417-434): raises
`ValueError` on an empty list, otherwise copies the first histogram and
folds `+` over the rest. -/
def combineHistograms (histograms : List Histo) : Except String Histo :=
  match histograms with
  | [] => Except.error "Empty histogram list"
  | h :: rest => Except.ok (rest.foldl Histo.add h)

/-- A single-bin histogram carrying a scalar yield `t` with uncertainty
`u`: content `t`, squared-error term `u * u`.  This is the shape through
which `Block`-level yields combine (`Tree.getYields` integrates a 1-bin
`getTH1F`, whose per-sample histograms were added bin-wise). -/
def yieldHisto (t u : ℚ) : Histo :=
  { lo := 0, hi := 1, contents := [t], sumw2 := [u * u] }

/-- Whether `pat` occurs as a contiguous run inside the character list (the
Python `in` test on strings), by structural recursion. -/
def listContainsSub (pat : List Char) : List Char → Bool
  | [] => pat.isEmpty
  | c :: rest => List.isPrefixOf pat (c :: rest) || listContainsSub pat rest

/-- Substring test `'.root' in f` used by `Sample._loadFiles`
(`Sample.py` lines 110-156) to keep only ROOT files. -/
def hasRootSubstr (f : String) : Bool :=
  listContainsSub ".root".toList f.toList

/-- Case 1 of `Sample._loadFiles` (`Sample.py` lines 113-121): the DAS
catalog-dataset case.  `cached` is the list from `getCachedDASFiles`;
when `file_limit > 0` it is truncated with `files[:file_limit]` after
resolution. -/
def loadFilesDAS (cached : List String) (file_limit : ℕ) : List String :=
  if file_limit > 0 then cached.take file_limit else cached

/-- The glob branch of Case 3 of `Sample._loadFiles` (`Sample.py` lines
142-146): every glob match containing `.root` is appended; the code
applies no `file_limit` check in this branch. -/
def loadFilesGlob (globMatches : List String) (file_limit : ℕ) : List String :=
  globMatches.filter hasRootSubstr

/-- The directory-walk branch of Case 3 of `Sample._loadFiles`
(`Sample.py` lines 147-156): `walkFiles` is the sequence of file paths
`os.walk` yields, in traversal order; files without `.root` are skipped,
and after appending a file the method returns as soon as
`file_limit > 0` and the collected list has reached `file_limit`. -/
def loadFilesWalkAux (file_limit : ℕ) (acc : List String) :
    List String → List String
  | [] => acc
  | f :: rest =>
    if hasRootSubstr f then
      let acc2 := acc ++ [f]
      if file_limit > 0 ∧ file_limit ≤ acc2.length then acc2
      else loadFilesWalkAux file_limit acc2 rest
    else loadFilesWalkAux file_limit acc rest

/-- Entry point of the directory-walk branch: start from an empty
collected list. -/
def loadFilesWalk (walkFiles : List String) (file_limit : ℕ) : List String :=
  loadFilesWalkAux file_limit [] walkFiles

/-- One line of the definitions file after successful field extraction
by `Tree.parseFileName` (`Sample.py` lines 350-390): the seven
whitespace-separated fields.  The numeric conversions
(`float(splitedLine[5])`, `int(splitedLine[6])`) and the `Sample`
construction applied to these fields downstream are kept as the raw
field strings here; `Tree.parseFileName` only dispatches on the field
count and the block name. -/
structure ParsedSample where
  blockName : String
  colorStr : String
  sampleName : String
  sampleLabel : String
  location : String
  xsectionStr : String
  isdataStr : String
deriving DecidableEq

/-- A `Block` as built by `Tree.parseFileName` (`Sample.py` lines
247-255 and 379-386): name, label, colour string and isdata string of
the line that created it, plus its samples in file order. -/
structure PBlock where
  name : String
  blockLabel : String
  colorStr : String
  isdataStr : String
  samples : List ParsedSample
deriving DecidableEq

/-- Whitespace characters recognised by Python's `str.strip()` and
`str.split()` (the subset that can occur in a definitions file). -/
def isSpaceChar (c : Char) : Bool :=
  c = ' ' ∨ c = '\t' ∨ c = '\n' ∨ c = '\r'

/-- Python `line.strip()`: drop whitespace from both ends. -/
def stripLine (line : String) : List Char :=
  ((line.toList.dropWhile isSpaceChar).reverse.dropWhile isSpaceChar).reverse

/-- Helper for Python `str.split()` with no separator argument: `cur`
holds the characters of the field being read, in reverse. -/
def fieldsAux (cur : List Char) : List Char → List (List Char)
  | [] => if cur.isEmpty then [] else [cur.reverse]
  | c :: rest =>
    if isSpaceChar c then
      if cur.isEmpty then fieldsAux [] rest
      else cur.reverse :: fieldsAux [] rest
    else fieldsAux (c :: cur) rest

/-- Python `str.split()` on a line: split on runs of whitespace,
producing no empty fields. -/
def splitFields (l : List Char) : List String :=
  (fieldsAux [] l).map (fun cs => String.mk cs)

/-- Field extraction for one line of the definitions file
(`Tree.parseFileName`, `Sample.py` lines 354-369): strip the line, skip
it when empty or starting with `#`, split it on whitespace, skip it when
it has fewer than 7 fields, otherwise read the seven fields. -/
def parseLine (line : String) : Option ParsedSample :=
  let l := stripLine line
  if l.isEmpty ∨ l.headD ' ' = '#' then none
  else
    let fields := splitFields l
    if fields.length < 7 then none
    else some { blockName := fields.getD 0 "", colorStr := fields.getD 1 "",
                sampleName := fields.getD 2 "", sampleLabel := fields.getD 3 "",
                location := fields.getD 4 "", xsectionStr := fields.getD 5 "",
                isdataStr := fields.getD 6 "" }

/-- Step `coincidentBlock[0].addSample(sample)` (`Sample.py` line 386):
append the sample to the first block whose name matches. -/
def addToFirstBlock (p : ParsedSample) : List PBlock → List PBlock
  | [] => []
  | b :: rest =>
    if b.name = p.blockName then
      { b with samples := b.samples ++ [p] } :: rest
    else b :: addToFirstBlock p rest

/-- Block grouping of `Tree.parseFileName` (`Sample.py` lines 379-386):
if no block with this line's block name exists yet, a new block holding
the sample is appended at the end; otherwise the sample is appended to
the first block with that name. -/
def addParsed (blocks : List PBlock) (p : ParsedSample) : List PBlock :=
  if (blocks.filter (fun b => b.name = p.blockName)).isEmpty then
    blocks ++ [{ name := p.blockName, blockLabel := p.sampleLabel,
                 colorStr := p.colorStr, isdataStr := p.isdataStr,
                 samples := [p] }]
  else addToFirstBlock p blocks

/-- Method `Tree.parseFileName` (`Sample.py` lines 350-390) over the list of
lines of the definitions file: fold `parseLine`/`addParsed` in file
order, starting from no blocks. -/
def parseFileName (lines : List String) : List PBlock :=
  lines.foldl (fun blocks line =>
    match parseLine line with
    | none => blocks
    | some p => addParsed blocks p) []

/-- Repeated `addSelection` calls, in order: the way user code layers
several cuts on a sample before asking for a histogram or a yield. -/
def addSelections (s : Sample α) (cuts : List (α → Bool)) : Sample α :=
  cuts.foldl Sample.addSelection s

/-- Witness fixture: generator-weight accessor giving every event the
weight 2. -/
def gwTwo : Unit → ℚ := fun _ => 2

/-- Witness fixture: a file loader whose every file holds two events. -/
def loadTwoEvents : String → Option (List Unit) := fun _ => some [(), ()]

/-- Witness fixture for the MC normalization claim: the sample produced
by `mkSample false 10 ["f.root"] 0 loadTwoEvents gwTwo` — cross-section
10, two events of generator weight 2, so the sum of generator weights is
4 and the normalization weight is 10/4. -/
def sampleMC4 : Sample Unit :=
  { isData := false, xSection := 10, file_paths := ["f.root"],
    events := [(), ()], selections := [], sum_genweight := 4, nevents := 2,
    eventWeight := fun e => gwTwo e * (10 / 4), lumWeight := 10 / 4 }

/-- Witness fixture: a file loader whose single file holds 100 events. -/
def loadHundred : String → Option (List Unit) :=
  fun _ => some (List.replicate 100 ())

/-- Witness fixture for the data-sample claim: the sample produced by
`mkSample true 1 ["f.root"] 0 loadHundred (fun _ => 1)` — a data sample
with 100 loaded events and no selection. -/
def dataSample100 : Sample Unit :=
  { isData := true, xSection := 1, file_paths := ["f.root"],
    events := List.replicate 100 (), selections := [], sum_genweight := 100,
    nevents := 100, eventWeight := fun _ => 1, lumWeight := 1 }

/-- Witness fixture: a file loader whose single file holds 1000 events:
500 events tagged 0 (which the scenario selection keeps) and 500 tagged
1 (which it rejects). -/
def loadThousand : String → Option (List ℕ) :=
  fun _ => some (List.replicate 500 0 ++ List.replicate 500 1)

/-- Witness fixture: unit generator weight for the tagged events. -/
def gwOne : ℕ → ℚ := fun _ => 1

/-- Witness fixture: the selection keeping the 500 events tagged 0. -/
def selectZeros : ℕ → Bool := fun n => n == 0

/-- Witness fixture for the simulated-yield scenario: the sample
produced by `mkSample false (607722/100) ["f.root"] 0 loadThousand
gwOne` — cross-section 6077.22, 1000 events of generator weight 1, so
the sum of generator weights is 1000. -/
def sampleDY : Sample ℕ :=
  { isData := false, xSection := 607722 / 100, file_paths := ["f.root"],
    events := List.replicate 500 0 ++ List.replicate 500 1, selections := [],
    sum_genweight := 1000, nevents := 1000,
    eventWeight := fun e => gwOne e * ((607722 / 100) / 1000),
    lumWeight := (607722 / 100) / 1000 }

/-- Witness fixture for the file-failure claim: the first file fails to
load, the second holds two events. -/
def loadOneBadOneGood : String → Option (List Unit) :=
  fun f => if f = "bad.root" then none else some [(), ()]

/-! ### Helper lemmas -/

theorem foldl_filter_eq_filter_all (events : List α) (cuts : List (α → Bool)) :
    cuts.foldl (fun evs cut => evs.filter cut) events
      = events.filter (fun e => cuts.all (fun cut => cut e)) := by
  induction cuts generalizing events with
  | nil => simp
  | cons cut rest ih =>
      rw [List.foldl_cons, ih, List.filter_filter]
      congr 1
      funext e
      rw [List.all_cons]
      exact Bool.and_comm _ _

theorem addSelections_fields (s : Sample α) (cuts : List (α → Bool)) :
    (addSelections s cuts).isData = s.isData ∧
    (addSelections s cuts).eventWeight = s.eventWeight ∧
    (addSelections s cuts).events = s.events ∧
    (addSelections s cuts).lumWeight = s.lumWeight ∧
    (addSelections s cuts).sum_genweight = s.sum_genweight ∧
    (addSelections s cuts).selections = s.selections ++ cuts := by
  induction cuts generalizing s with
  | nil => simp [addSelections]
  | cons cut rest ih =>
      obtain ⟨h1, h2, h3, h4, h5, h6⟩ := ih (s.addSelection cut)
      refine ⟨h1, h2, h3, h4, h5, ?_⟩
      have hstep : addSelections s (cut :: rest)
          = addSelections (s.addSelection cut) rest := rfl
      rw [hstep, h6]
      simp [Sample.addSelection]

theorem sum_map_mul_const (l : List α) (f : α → ℚ) (c : ℚ) :
    (l.map (fun e => f e * c)).sum = (l.map f).sum * c := by
  induction l with
  | nil => simp
  | cons a t ih => simp [ih, add_mul]

theorem zipWith_add_comm (l1 l2 : List ℚ) :
    List.zipWith (fun x y => x + y) l1 l2 = List.zipWith (fun x y => x + y) l2 l1 := by
  induction l1 generalizing l2 with
  | nil => cases l2 <;> simp
  | cons x xs ih => cases l2 <;> simp [ih, add_comm]

theorem zipWith_add_assoc (l1 l2 l3 : List ℚ) :
    List.zipWith (fun x y => x + y) (List.zipWith (fun x y => x + y) l1 l2) l3
      = List.zipWith (fun x y => x + y) l1 (List.zipWith (fun x y => x + y) l2 l3) := by
  induction l1 generalizing l2 l3 with
  | nil => simp
  | cons x xs ih =>
      cases l2 with
      | nil => simp
      | cons y ys =>
          cases l3 with
          | nil => simp
          | cons z zs => simp [ih, add_assoc]

theorem loadFilesWalkAux_zero (l : List String) :
    ∀ acc : List String, loadFilesWalkAux 0 acc l = acc ++ l.filter hasRootSubstr := by
  induction l with
  | nil => intro acc; simp [loadFilesWalkAux]
  | cons f rest ih =>
      intro acc
      unfold loadFilesWalkAux
      by_cases hf : hasRootSubstr f
      · simp [hf, ih, List.filter_cons]
      · simp [hf, ih, List.filter_cons]

theorem loadFilesWalkAux_limit (limit : ℕ) (l : List String) :
    ∀ acc : List String, acc.length < limit →
      loadFilesWalkAux limit acc l
        = acc ++ (l.filter hasRootSubstr).take (limit - acc.length) := by
  induction l with
  | nil => intro acc _; simp [loadFilesWalkAux]
  | cons f rest ih =>
      intro acc hacc
      unfold loadFilesWalkAux
      by_cases hf : hasRootSubstr f
      · simp only [hf, if_true]
        by_cases hstop : limit > 0 ∧ limit ≤ (acc ++ [f]).length
        · rw [if_pos hstop]
          have hlim : limit - acc.length = 1 := by
            simp only [List.length_append, List.length_cons, List.length_nil] at hstop
            omega
          simp [List.filter_cons, hf, hlim]
        · rw [if_neg hstop]
          have hlt : (acc ++ [f]).length < limit := by
            simp only [List.length_append, List.length_cons, List.length_nil] at hstop ⊢
            omega
          rw [ih (acc ++ [f]) hlt]
          have htake : limit - acc.length = (limit - (acc ++ [f]).length) + 1 := by
            simp only [List.length_append, List.length_cons, List.length_nil]
            omega
          simp [List.filter_cons, hf, htake, List.take_succ_cons]
      · simp only [hf, if_false]
        rw [ih acc hacc]
        simp [List.filter_cons, hf]

theorem loadEvents_ok_elim {cached : List String} {limit : ℕ}
    {loadFile : String → Option (List α)} {paths : List String} {evs : List α}
    (h : loadEvents cached limit loadFile = Except.ok (paths, evs)) :
    paths = (if limit > 0 then cached.take limit else cached) ∧
    evs = (paths.filterMap loadFile).flatten ∧
    paths ≠ [] ∧ paths.filterMap loadFile ≠ [] := by
  simp only [loadEvents] at h
  by_cases h1 : (if limit > 0 then cached.take limit else cached).isEmpty
  · rw [if_pos h1] at h
    exact absurd h (by simp)
  · rw [if_neg h1] at h
    by_cases h2 :
        ((if limit > 0 then cached.take limit else cached).filterMap loadFile).isEmpty
    · rw [if_pos h2] at h
      exact absurd h (by simp)
    · rw [if_neg h2] at h
      injection h with h3
      rw [Prod.mk.injEq] at h3
      obtain ⟨hp, he⟩ := h3
      subst hp
      refine ⟨rfl, he.symm, ?_, ?_⟩
      · intro hc
        rw [hc] at h1
        simp at h1
      · intro hc
        rw [hc] at h2
        simp at h2

theorem setupWeights_ok_elim {gw : α → ℚ} {x : ℚ} {isdata : Bool} {events : List α}
    {sgw lw : ℚ} {ew : α → ℚ}
    (h : setupWeights gw x isdata events = Except.ok (sgw, lw, ew)) :
    (isdata = false → (events.map gw).sum ≠ 0 ∧ sgw = (events.map gw).sum ∧
      lw = x / (events.map gw).sum ∧
      ew = fun e => gw e * (x / (events.map gw).sum)) ∧
    (isdata = true → sgw = (events.length : ℚ) ∧ lw = 1 ∧ ew = fun _ => 1) := by
  cases isdata with
  | false =>
      refine ⟨fun _ => ?_, fun hT => Bool.noConfusion hT⟩
      simp only [setupWeights, if_pos rfl] at h
      by_cases hz : (events.map gw).sum = 0
      · rw [if_pos hz] at h
        exact absurd h (by simp)
      · rw [if_neg hz] at h
        injection h with h3
        rw [Prod.mk.injEq, Prod.mk.injEq] at h3
        obtain ⟨h4, h5, h6⟩ := h3
        exact ⟨hz, h4.symm, h5.symm, h6.symm⟩
  | true =>
      refine ⟨fun hF => Bool.noConfusion hF, fun _ => ?_⟩
      simp only [setupWeights] at h
      rw [if_neg (by simp)] at h
      injection h with h3
      rw [Prod.mk.injEq, Prod.mk.injEq] at h3
      obtain ⟨h4, h5, h6⟩ := h3
      exact ⟨h4.symm, h5.symm, h6.symm⟩

theorem mkSample_ok_elim {isdata : Bool} {x : ℚ} {cached : List String} {limit : ℕ}
    {loadFile : String → Option (List α)} {gw : α → ℚ} {s : Sample α}
    (h : mkSample isdata x cached limit loadFile gw = Except.ok s) :
    s.isData = isdata ∧ s.xSection = x ∧ s.selections = [] ∧
    s.events = ((if limit > 0 then cached.take limit else cached).filterMap loadFile).flatten ∧
    (isdata = false →
      (s.events.map gw).sum ≠ 0 ∧ s.sum_genweight = (s.events.map gw).sum ∧
      s.lumWeight = x / (s.events.map gw).sum ∧
      s.eventWeight = fun e => gw e * (x / (s.events.map gw).sum)) ∧
    (isdata = true →
      s.sum_genweight = (s.events.length : ℚ) ∧ s.eventWeight = fun _ => 1) := by
  unfold mkSample at h
  split at h
  · exact absurd h (by simp)
  · rename_i paths evs hle
    split at h
    · exact absurd h (by simp)
    · rename_i sgw lw ew hsw
      obtain ⟨hp, he, hpne, hane⟩ := loadEvents_ok_elim hle
      obtain ⟨hmc, hdata⟩ := setupWeights_ok_elim hsw
      injection h with h3
      subst h3
      subst hp
      refine ⟨rfl, rfl, rfl, he, fun hF => ?_, fun hT => ?_⟩
      · obtain ⟨hz, h4, h5, h6⟩ := hmc hF
        have hev : evs =
            ((if limit > 0 then cached.take limit else cached).filterMap loadFile).flatten := he
        exact ⟨by rw [← hev] at *; exact hz, by simpa [← hev] using h4,
               by simpa [← hev] using h5, by simpa [← hev] using h6⟩
      · obtain ⟨h4, h5, h6⟩ := hdata hT
        exact ⟨h4, h6⟩

theorem mkSample_eq_ok_of {isdata : Bool} {x : ℚ} {cached paths : List String}
    {limit : ℕ} {loadFile : String → Option (List α)} {gw : α → ℚ}
    {evs : List α} {sgw lw : ℚ} {ew : α → ℚ}
    (hle : loadEvents cached limit loadFile = Except.ok (paths, evs))
    (hsw : setupWeights gw x isdata evs = Except.ok (sgw, lw, ew)) :
    mkSample isdata x cached limit loadFile gw
      = Except.ok { isData := isdata, xSection := x, file_paths := paths,
                    events := evs, selections := [], sum_genweight := sgw,
                    nevents := evs.length, eventWeight := ew, lumWeight := lw } := by
  unfold mkSample
  simp only [hle, hsw]

/-! ### Claim theorems -/

/-- Claim C5: `addSelection` appends each cut at the end of the selection
list, and `_applySelections` evaluates the cuts in that insertion order,
each against the view already narrowed by the preceding cuts, so the
filtered view is exactly the events satisfying the logical AND of all
added selections; moreover applying the selections after adding one more
cut filters the previously narrowed view by that cut. -/
theorem applySelections_conjunction (s : Sample α) :
    s.applySelections
      = s.events.filter (fun e => s.selections.all (fun cut => cut e)) ∧
    (∀ cut, (s.addSelection cut).selections = s.selections ++ [cut]) ∧
    (∀ cut, (s.addSelection cut).applySelections = s.applySelections.filter cut) := by
  refine ⟨foldl_filter_eq_filter_all s.events s.selections, fun cut => rfl,
    fun cut => ?_⟩
  show (s.selections ++ [cut]).foldl (fun evs c => evs.filter c) s.events = _
  rw [List.foldl_append]
  rfl

/-- Claim C7: a locator whose resolved file list is empty makes sample
construction raise (`RuntimeError: No files found ...` in
`Sample_coffea.py` line 144, likewise `Sample.py` lines 93-94), for data
and MC alike and for any file limit: no sample object is produced. -/
theorem construction_fails_on_no_files (isdata : Bool) (x : ℚ) (limit : ℕ)
    (loadFile : String → Option (List α)) (gw : α → ℚ) :
    mkSample isdata x [] limit loadFile gw
      = Except.error "No files found for dataset" := by
  unfold mkSample
  have hle : loadEvents ([] : List String) limit loadFile
      = Except.error "No files found for dataset" := by
    simp [loadEvents]
  rw [hle]

/-- Counterexample to claim C8: when the catalog client is not installed
(`FileNotFoundError` from `subprocess.run`), `queryDAS` does not fail
fatally: the handler prints a message and returns an empty list, so the
call evaluates to a normal (non-error) result. -/
theorem queryDAS_client_missing_not_fatal :
    queryDAS DASOutcome.fileNotFoundError = Except.ok ([] : List String) := rfl

/-- Amended claim C8: both failure modes of `queryDAS` are non-fatal and
behave the same at the call site: a missing catalog client and a failed
catalog query each print a diagnostic and return an empty file list; the
function never propagates an exception. -/
theorem queryDAS_failures_return_empty :
    (∀ stderr, queryDAS (DASOutcome.calledProcessError stderr)
        = Except.ok ([] : List String)) ∧
    queryDAS DASOutcome.fileNotFoundError = Except.ok ([] : List String) ∧
    ∀ outcome, (queryDAS outcome).isOk = true := by
  refine ⟨fun _ => rfl, rfl, fun outcome => ?_⟩
  cases outcome <;> rfl

/-- Counterexample to claim C6: the explicit-glob branch of
`Sample._loadFiles` applies no truncation: with `file_limit = 1` and
three matching ROOT files, all three are kept, so the resolved list is
not capped at the limit in the glob case. -/
theorem glob_limit_not_applied :
    (loadFilesGlob ["a.root", "b.root", "c.root"] 1).length = 3 ∧
    ¬ (loadFilesGlob ["a.root", "b.root", "c.root"] 1).length ≤ 1 := by
  exact ⟨rfl, by decide⟩

/-- Amended claim C6: when the limit is positive, the catalog-dataset case
truncates the resolved list after resolution (`files[:file_limit]`) and
the directory-walk case stops incrementally once `limit` ROOT files are
collected, both yielding at most `limit` files; the explicit-glob case
ignores the limit and keeps every matching ROOT file; with limit 0 every
case is unbounded. -/
theorem file_limit_per_case (cached walkFiles globMatches : List String)
    (limit : ℕ) (hpos : 0 < limit) :
    loadFilesDAS cached limit = cached.take limit ∧
    (loadFilesDAS cached limit).length ≤ limit ∧
    loadFilesWalk walkFiles limit = (walkFiles.filter hasRootSubstr).take limit ∧
    (loadFilesWalk walkFiles limit).length ≤ limit ∧
    loadFilesGlob globMatches limit = globMatches.filter hasRootSubstr ∧
    loadFilesDAS cached 0 = cached ∧
    loadFilesWalk walkFiles 0 = walkFiles.filter hasRootSubstr ∧
    loadFilesGlob globMatches 0 = globMatches.filter hasRootSubstr := by
  have hdas : loadFilesDAS cached limit = cached.take limit := by
    simp [loadFilesDAS, hpos]
  have hwalk : loadFilesWalk walkFiles limit
      = (walkFiles.filter hasRootSubstr).take limit := by
    unfold loadFilesWalk
    rw [loadFilesWalkAux_limit limit walkFiles [] (by simpa using hpos)]
    simp
  refine ⟨hdas, ?_, hwalk, ?_, rfl, by simp [loadFilesDAS], ?_, rfl⟩
  · rw [hdas, List.length_take]
    exact min_le_left _ _
  · rw [hwalk, List.length_take]
    exact min_le_left _ _
  · unfold loadFilesWalk
    rw [loadFilesWalkAux_zero walkFiles []]
    rfl

/-- Witness for `file_limit_per_case` at limit 2, three catalog files,
a four-entry directory walk and three glob matches. -/
theorem file_limit_per_case_witness :
    0 < 2 ∧
    loadFilesDAS ["a", "b", "c"] 2 = ["a", "b", "c"].take 2 ∧
    loadFilesWalk ["a.root", "b.txt", "c.root", "d.root"] 2
      = (["a.root", "b.txt", "c.root", "d.root"].filter hasRootSubstr).take 2 ∧
    loadFilesGlob ["a.root", "b.root", "c.root"] 2
      = ["a.root", "b.root", "c.root"].filter hasRootSubstr := by
  have h := file_limit_per_case ["a", "b", "c"]
    ["a.root", "b.txt", "c.root", "d.root"] ["a.root", "b.root", "c.root"]
    2 (by decide)
  exact ⟨by decide, h.1, h.2.2.1, h.2.2.2.2.1⟩

/-- Claim C9: a non-comment definitions-file line with fewer than 7
whitespace-separated fields is skipped by `Tree.parseFileName`: the
parser (a total function here, so it cannot crash) produces exactly the
blocks and samples it would produce with that line removed, and the
remaining lines are parsed normally. -/
theorem malformed_line_skipped (pre post : List String) (line : String)
    (hbad : (splitFields (stripLine line)).length < 7) :
    parseFileName (pre ++ line :: post) = parseFileName (pre ++ post) := by
  have hnone : parseLine line = none := by
    unfold parseLine
    by_cases h1 : (stripLine line).isEmpty ∨ (stripLine line).headD ' ' = '#'
    · rw [if_pos h1]
    · rw [if_neg h1, if_pos hbad]
  unfold parseFileName
  rw [List.foldl_append, List.foldl_append]
  simp only [List.foldl_cons, hnone]

/-- Witness for `malformed_line_skipped` on a five-field line between a
comment plus a well-formed line and another well-formed line. -/
theorem malformed_line_skipped_witness :
    (splitFields (stripLine "blockA 602 DYsample label /path")).length < 7 ∧
    parseFileName ["# samples", "blockA 602 DY DYlabel /data/dy 6077.22 0",
        "blockA 602 DYsample label /path",
        "blockB 401 Mu MuLabel /data/mu 1.0 1"]
      = parseFileName ["# samples", "blockA 602 DY DYlabel /data/dy 6077.22 0",
        "blockB 401 Mu MuLabel /data/mu 1.0 1"] := by
  refine ⟨by decide, ?_⟩
  exact malformed_line_skipped
    ["# samples", "blockA 602 DY DYlabel /data/dy 6077.22 0"]
    ["blockB 401 Mu MuLabel /data/mu 1.0 1"]
    "blockA 602 DYsample label /path" (by decide)

/-- Claim C1: a simulated sample (`isdata = false`) constructed with
cross-section `x` whose loaded events have a positive sum of generator
weights carries the normalization weight `x / sum`, so that weight times
the sum of generator weights gives back the cross-section; the weight is
fixed at construction: adding or clearing selections leaves both the
normalization weight and the per-event weight column untouched. -/
theorem mc_normalization_weight (x : ℚ) (cached : List String) (limit : ℕ)
    (loadFile : String → Option (List α)) (gw : α → ℚ) (s : Sample α)
    (h : mkSample false x cached limit loadFile gw = Except.ok s)
    (hpos : 0 < (s.events.map gw).sum) :
    s.lumWeight = x / (s.events.map gw).sum ∧
    s.lumWeight * (s.events.map gw).sum = x ∧
    (∀ cut, (s.addSelection cut).lumWeight = s.lumWeight ∧
            (s.addSelection cut).eventWeight = s.eventWeight) ∧
    s.clearSelections.lumWeight = s.lumWeight ∧
    s.clearSelections.eventWeight = s.eventWeight := by
  obtain ⟨_, _, _, _, hmc, _⟩ := mkSample_ok_elim h
  obtain ⟨hnz, hsgw, hlw, hew⟩ := hmc rfl
  refine ⟨hlw, ?_, fun cut => ⟨rfl, rfl⟩, rfl, rfl⟩
  rw [hlw]
  exact div_mul_cancel₀ x (ne_of_gt hpos)

/-- Witness for `mc_normalization_weight`: cross-section 10, one file
with two events of generator weight 2 each, so the sum of generator
weights is 4 and the stored normalization weight is 10/4. -/
theorem mc_normalization_weight_witness :
    mkSample false 10 ["f.root"] 0 loadTwoEvents gwTwo = Except.ok sampleMC4 ∧
    0 < (sampleMC4.events.map gwTwo).sum ∧
    sampleMC4.lumWeight = 10 / (sampleMC4.events.map gwTwo).sum ∧
    sampleMC4.lumWeight * (sampleMC4.events.map gwTwo).sum = 10 := by
  have hle : loadEvents ["f.root"] 0 loadTwoEvents
      = Except.ok (["f.root"], [(), ()]) := rfl
  have hsum : (List.map gwTwo [(), ()]).sum = 4 := by norm_num [gwTwo]
  have hsw : setupWeights gwTwo 10 false [(), ()]
      = Except.ok (4, 10 / 4, fun e => gwTwo e * (10 / 4)) := by
    simp only [setupWeights, eq_self_iff_true, if_true, hsum]
    rw [if_neg (by norm_num)]
  have hok : mkSample false 10 ["f.root"] 0 loadTwoEvents gwTwo
      = Except.ok sampleMC4 := mkSample_eq_ok_of hle hsw
  have hpos : 0 < (sampleMC4.events.map gwTwo).sum := by
    show 0 < (List.map gwTwo [(), ()]).sum
    rw [hsum]
    norm_num
  have h := mc_normalization_weight 10 ["f.root"] 0 loadTwoEvents gwTwo
    sampleMC4 hok hpos
  exact ⟨hok, hpos, h.1, h.2.1⟩

/-- Claim C2: for every data sample the per-event weight used by both
`getYield` and `getHist` is 1 for every selected event, whatever
selections have been added (and `addSelection` keeps the sample a data
sample), so a data sample with `N` selected events yields
`(N, sqrt N)`. -/
theorem data_sample_unit_weights (s : Sample α) (hd : s.isData = true) (lumi : ℚ) :
    (∀ cut, (s.addSelection cut).isData = true) ∧
    s.yieldWeights lumi = List.replicate s.applySelections.length 1 ∧
    s.histWeights lumi = List.replicate s.applySelections.length 1 ∧
    s.getYieldSq lumi
      = ((s.applySelections.length : ℚ), (s.applySelections.length : ℚ)) ∧
    Real.sqrt (((s.getYieldSq lumi).2 : ℚ) : ℝ)
      = Real.sqrt (s.applySelections.length : ℝ) := by
  have hyw : s.yieldWeights lumi = List.replicate s.applySelections.length 1 := by
    unfold Sample.yieldWeights
    simp [hd]
  have hhw : s.histWeights lumi = List.replicate s.applySelections.length 1 := by
    unfold Sample.histWeights
    simp [hd]
  have hysq : s.getYieldSq lumi
      = ((s.applySelections.length : ℚ), (s.applySelections.length : ℚ)) := by
    unfold Sample.getYieldSq
    rw [hyw]
    simp [List.map_replicate, List.sum_replicate]
  refine ⟨fun cut => hd, hyw, hhw, hysq, ?_⟩
  rw [hysq]
  push_cast
  rfl

/-- Witness for `data_sample_unit_weights`: a data sample with 100
loaded events and no selection yields total 100 with uncertainty
`sqrt 100 = 10`. -/
theorem data_sample_unit_weights_witness :
    dataSample100.isData = true ∧
    mkSample true 1 ["f.root"] 0 loadHundred (fun _ => (1 : ℚ))
      = Except.ok dataSample100 ∧
    dataSample100.getYieldSq 1 = (100, 100) ∧
    Real.sqrt (((dataSample100.getYieldSq 1).2 : ℚ) : ℝ) = 10 := by
  have h := data_sample_unit_weights dataSample100 rfl 1
  have hle : loadEvents ["f.root"] 0 loadHundred
      = Except.ok (["f.root"], List.replicate 100 ()) := by
    simp [loadEvents, loadHundred]
  have hsw : setupWeights (fun _ => (1 : ℚ)) 1 true (List.replicate 100 ())
      = Except.ok (100, 1, fun _ => 1) := by
    simp only [setupWeights]
    rw [if_neg (by simp)]
    norm_num
  have hok : mkSample true 1 ["f.root"] 0 loadHundred (fun _ => (1 : ℚ))
      = Except.ok dataSample100 := by
    have h1 := mkSample_eq_ok_of hle hsw
    rw [show (List.replicate 100 ()).length = 100 by simp] at h1
    exact h1
  have hlen : dataSample100.applySelections.length = 100 := by
    show (List.replicate 100 ()).length = 100
    simp
  have hq : dataSample100.getYieldSq 1 = (100, 100) := by
    rw [h.2.2.2.1, hlen]
    norm_num
  refine ⟨rfl, hok, hq, ?_⟩
  rw [hq]
  rw [show (((100 : ℚ) : ℝ)) = (10 : ℝ) ^ 2 by norm_num]
  exact Real.sqrt_sq (by norm_num)

/-- Counterexample to claim C3: in the spec scenario (cross-section 6077.22,
sum of generator weights 1000, 500 passing events of generator weight 1,
lumi 35.9) the yield total is exactly 109086.099, which is not the
spec's quoted value 109065.9. -/
theorem mc_yield_scenario_exact_value :
    ((addSelections sampleDY [selectZeros]).getYieldSq (359 / 10)).1
      = 109086099 / 1000 ∧
    ((addSelections sampleDY [selectZeros]).getYieldSq (359 / 10)).1
      ≠ 1090659 / 10 := by
  have hsel : (addSelections sampleDY [selectZeros]).applySelections
      = List.replicate 500 0 := by
    show (List.replicate 500 0 ++ List.replicate 500 1).filter selectZeros = _
    rw [List.filter_append, List.filter_replicate, List.filter_replicate]
    norm_num [selectZeros]
  have hyw : (addSelections sampleDY [selectZeros]).yieldWeights (359 / 10)
      = ((addSelections sampleDY [selectZeros]).applySelections).map
          (fun e =>
            (addSelections sampleDY [selectZeros]).eventWeight e * (359 / 10)) := by
    unfold Sample.yieldWeights
    rw [if_neg (fun hc => Bool.noConfusion hc)]
  have hval : ((addSelections sampleDY [selectZeros]).getYieldSq (359 / 10)).1
      = 109086099 / 1000 := by
    show ((addSelections sampleDY [selectZeros]).yieldWeights (359 / 10)).sum = _
    rw [hyw, hsel, List.map_replicate, List.sum_replicate, nsmul_eq_mul]
    norm_num [addSelections, Sample.addSelection, sampleDY, gwOne]
  refine ⟨hval, ?_⟩
  rw [hval]
  norm_num

/-- Amended claim C3: for a simulated sample, `getYield(lumi)` returns as
total the sum over selected events of generator-weight × normalization
weight × lumi (factored below as selected-generator-weight-sum ×
(x / total-generator-weight-sum) × lumi), and as squared uncertainty the
sum of the squared per-event weights; in the spec scenario the total is
500 × (6077.22/1000) × 35.9 (= 109086.099, not the spec's misquoted
109065.9). -/
theorem mc_yield_formula (x : ℚ) (cached : List String) (limit : ℕ)
    (loadFile : String → Option (List α)) (gw : α → ℚ) (s : Sample α)
    (h : mkSample false x cached limit loadFile gw = Except.ok s)
    (cuts : List (α → Bool)) (lumi : ℚ) :
    ((addSelections s cuts).getYieldSq lumi).1
      = ((addSelections s cuts).applySelections.map gw).sum
          * (x / (s.events.map gw).sum) * lumi ∧
    ((addSelections s cuts).getYieldSq lumi).2
      = ((addSelections s cuts).applySelections.map
          (fun e => (gw e * (x / (s.events.map gw).sum) * lumi)
                  * (gw e * (x / (s.events.map gw).sum) * lumi))).sum := by
  obtain ⟨hd, _, _, _, hmc, _⟩ := mkSample_ok_elim h
  obtain ⟨hnz, hsgw, hlw, hew⟩ := hmc rfl
  obtain ⟨had, haw, hae, _, _, _⟩ := addSelections_fields s cuts
  have hdd : (addSelections s cuts).isData = false := by rw [had, hd]
  have hyw : (addSelections s cuts).yieldWeights lumi
      = (addSelections s cuts).applySelections.map
          (fun e => gw e * ((x / (s.events.map gw).sum) * lumi)) := by
    unfold Sample.yieldWeights
    rw [hdd]
    simp only [Bool.false_eq_true, if_false]
    congr 1
    funext e
    rw [haw, hew]
    ring
  constructor
  · show ((addSelections s cuts).yieldWeights lumi).sum = _
    rw [hyw, sum_map_mul_const]
    ring
  · show (((addSelections s cuts).yieldWeights lumi).map (fun w => w * w)).sum = _
    rw [hyw, List.map_map]
    have hfun : ((fun w => w * w) ∘ fun e => gw e * ((x / (s.events.map gw).sum) * lumi))
        = fun e => (gw e * (x / (s.events.map gw).sum) * lumi)
                 * (gw e * (x / (s.events.map gw).sum) * lumi) := by
      funext e
      simp only [Function.comp]
      ring
    rw [hfun]

/-- Witness for `mc_yield_formula`: `sampleDY` has cross-section
6077.22, 1000 events of generator weight 1, and the cut keeps 500 of
them; at lumi 35.9 the total is 500 × (6077.22/1000) × 35.9. -/
theorem mc_yield_formula_witness :
    mkSample false (607722 / 100) ["f.root"] 0 loadThousand gwOne
      = Except.ok sampleDY ∧
    ((addSelections sampleDY [selectZeros]).getYieldSq (359 / 10)).1
      = ((addSelections sampleDY [selectZeros]).applySelections.map gwOne).sum
          * ((607722 / 100) / (sampleDY.events.map gwOne).sum) * (359 / 10) ∧
    ((addSelections sampleDY [selectZeros]).getYieldSq (359 / 10)).1
      = 500 * ((607722 / 100) / 1000) * (359 / 10) := by
  have hle : loadEvents ["f.root"] 0 loadThousand
      = Except.ok (["f.root"], List.replicate 500 0 ++ List.replicate 500 1) := by
    simp only [loadEvents, loadThousand, gt_iff_lt, lt_self_iff_false, if_false,
      List.isEmpty_cons, Bool.false_eq_true, List.filterMap_cons, List.filterMap_nil,
      List.flatten_cons, List.flatten_nil, List.append_nil]
  have hlen : (List.replicate 500 (0 : ℕ) ++ List.replicate 500 1).length = 1000 := by
    rw [List.length_append, List.length_replicate, List.length_replicate]
  have hsum : (List.map gwOne (List.replicate 500 0 ++ List.replicate 500 1)).sum
      = 1000 := by
    rw [List.map_append, List.map_replicate, List.map_replicate, List.sum_append,
        List.sum_replicate, List.sum_replicate, nsmul_eq_mul, nsmul_eq_mul]
    norm_num [gwOne]
  have hsw : setupWeights gwOne (607722 / 100) false
      (List.replicate 500 0 ++ List.replicate 500 1)
      = Except.ok (1000, (607722 / 100) / 1000,
          fun e => gwOne e * ((607722 / 100) / 1000)) := by
    simp only [setupWeights, eq_self_iff_true, if_true, hsum]
    rw [if_neg (by norm_num)]
  have hok : mkSample false (607722 / 100) ["f.root"] 0 loadThousand gwOne
      = Except.ok sampleDY := by
    have h1 := mkSample_eq_ok_of hle hsw
    rw [hlen] at h1
    exact h1
  have h := mc_yield_formula (607722 / 100) ["f.root"] 0 loadThousand gwOne
    sampleDY hok [selectZeros] (359 / 10)
  have hsel : (addSelections sampleDY [selectZeros]).applySelections
      = List.replicate 500 0 := by
    show (List.replicate 500 0 ++ List.replicate 500 1).filter selectZeros = _
    rw [List.filter_append, List.filter_replicate, List.filter_replicate]
    norm_num [selectZeros]
  have hsum500 : ((addSelections sampleDY [selectZeros]).applySelections.map
      gwOne).sum = 500 := by
    rw [hsel, List.map_replicate, List.sum_replicate, nsmul_eq_mul]
    norm_num [gwOne]
  refine ⟨hok, h.1, ?_⟩
  rw [h.1, hsum500]
  show _ * ((607722 / 100) / (List.map gwOne (List.replicate 500 0 ++
      List.replicate 500 1)).sum) * (359 / 10) = _
  rw [hsum]

/-- Claim C4: merging histograms of identical binning is commutative and
associative (so any merge order gives the same per-bin contents and
squared-error terms, hence the same uncertainties), `combineHistograms`
folds this merge over a non-empty list, and the spec's Block scenario
holds: single-bin yield histograms (10, 3) and (20, 4) merge to (30, 5),
the uncertainties combining in quadrature, `sqrt (3² + 4²) = 5`. -/
theorem histogram_merge_comm_assoc (a b c : Histo) (hab : sameBinning a b) :
    Histo.add a b = Histo.add b a ∧
    Histo.add (Histo.add a b) c = Histo.add a (Histo.add b c) ∧
    (∀ hs : List Histo,
      combineHistograms (a :: hs) = Except.ok (hs.foldl Histo.add a)) ∧
    combineHistograms [yieldHisto 10 3, yieldHisto 20 4]
      = Except.ok (yieldHisto 30 5) ∧
    Real.sqrt ((3 : ℝ) ^ 2 + 4 ^ 2) = 5 := by
  obtain ⟨hlo, hhi, _, _⟩ := hab
  have hsc : Histo.add (yieldHisto 10 3) (yieldHisto 20 4) = yieldHisto 30 5 := by
    simp only [Histo.add, yieldHisto, List.zipWith_cons_cons, List.zipWith_nil_right,
      Histo.mk.injEq]
    norm_num
  refine ⟨?_, ?_, fun hs => rfl, ?_, ?_⟩
  · show Histo.mk a.lo a.hi _ _ = Histo.mk b.lo b.hi _ _
    rw [hlo, hhi, zipWith_add_comm a.contents b.contents,
        zipWith_add_comm a.sumw2 b.sumw2]
  · show Histo.mk a.lo a.hi
        (List.zipWith (fun x y => x + y)
          (List.zipWith (fun x y => x + y) a.contents b.contents) c.contents)
        (List.zipWith (fun x y => x + y)
          (List.zipWith (fun x y => x + y) a.sumw2 b.sumw2) c.sumw2)
      = Histo.mk a.lo a.hi
        (List.zipWith (fun x y => x + y) a.contents
          (List.zipWith (fun x y => x + y) b.contents c.contents))
        (List.zipWith (fun x y => x + y) a.sumw2
          (List.zipWith (fun x y => x + y) b.sumw2 c.sumw2))
    rw [zipWith_add_assoc, zipWith_add_assoc]
  · show Except.ok (Histo.add (yieldHisto 10 3) (yieldHisto 20 4)) = _
    rw [hsc]
  · rw [show ((3 : ℝ) ^ 2 + 4 ^ 2) = 5 ^ 2 by norm_num]
    exact Real.sqrt_sq (by norm_num)

/-- Witness for `histogram_merge_comm_assoc` on three single-bin
histograms. -/
theorem histogram_merge_comm_assoc_witness :
    sameBinning (yieldHisto 10 3) (yieldHisto 20 4) ∧
    Histo.add (yieldHisto 10 3) (yieldHisto 20 4)
      = Histo.add (yieldHisto 20 4) (yieldHisto 10 3) ∧
    combineHistograms [yieldHisto 10 3, yieldHisto 20 4]
      = Except.ok (yieldHisto 30 5) := by
  have h := histogram_merge_comm_assoc (yieldHisto 10 3) (yieldHisto 20 4)
    (yieldHisto 1 1) ⟨rfl, rfl, rfl, rfl⟩
  exact ⟨⟨rfl, rfl, rfl, rfl⟩, h.1, h.2.2.2.1⟩

/-- Counterexample to claim C10: a simulated sample whose single file
resolves and loads (but holds no events, so the generator-weight sum is
0.0) still fails construction with `ZeroDivisionError` in
`_setupWeights`, so loading at least one file does not guarantee
construction succeeds. -/
theorem mc_construction_fails_despite_loaded_file :
    ["good.root"].filterMap (fun _ => some ([] : List Unit)) ≠ [] ∧
    mkSample false 1 ["good.root"] 0 (fun _ => some ([] : List Unit))
        (fun _ => (1 : ℚ))
      = Except.error "ZeroDivisionError: float division by zero" := by
  refine ⟨by decide, ?_⟩
  have hle : loadEvents ["good.root"] 0 (fun _ => some ([] : List Unit))
      = Except.ok (["good.root"], ([] : List Unit)) := rfl
  have hsw : setupWeights (fun _ => (1 : ℚ)) 1 false ([] : List Unit)
      = Except.error "ZeroDivisionError: float division by zero" := by
    simp [setupWeights]
  unfold mkSample
  simp only [hle, hsw]

/-- Amended claim C10: `_loadEvents` tolerates individual file-load
failures — each failing file is skipped and its events are absent from
the concatenated collection — and construction succeeds whenever at
least one resolved file loads, provided additionally (for simulation)
that the loaded generator weights do not sum to zero; the surviving
events are exactly the concatenation of the successfully loaded files'
events, in file order. -/
theorem construction_tolerates_file_failures (isdata : Bool) (x : ℚ)
    (cached : List String) (limit : ℕ) (loadFile : String → Option (List α))
    (gw : α → ℚ)
    (hsome : (if limit > 0 then cached.take limit else cached).filterMap loadFile ≠ [])
    (hw : isdata = false →
      ((((if limit > 0 then cached.take limit else cached).filterMap
          loadFile).flatten).map gw).sum ≠ 0) :
    ∃ s, mkSample isdata x cached limit loadFile gw = Except.ok s ∧
      s.events = ((if limit > 0 then cached.take limit else cached).filterMap
          loadFile).flatten := by
  have hpne : (if limit > 0 then cached.take limit else cached) ≠ [] := by
    intro hc
    apply hsome
    rw [hc]
    rfl
  have hle : loadEvents cached limit loadFile
      = Except.ok ((if limit > 0 then cached.take limit else cached),
          ((if limit > 0 then cached.take limit else cached).filterMap
            loadFile).flatten) := by
    simp only [loadEvents]
    rw [if_neg (by simpa [List.isEmpty_iff] using hpne),
        if_neg (by simpa [List.isEmpty_iff] using hsome)]
  cases isdata with
  | false =>
      have hz := hw rfl
      have hsw : setupWeights gw x false
          (((if limit > 0 then cached.take limit else cached).filterMap
            loadFile).flatten)
          = Except.ok
              ((((if limit > 0 then cached.take limit else cached).filterMap
                  loadFile).flatten.map gw).sum,
               x / (((if limit > 0 then cached.take limit else cached).filterMap
                  loadFile).flatten.map gw).sum,
               fun e => gw e *
                 (x / (((if limit > 0 then cached.take limit else
                   cached).filterMap loadFile).flatten.map gw).sum)) := by
        unfold setupWeights
        rw [if_pos rfl, if_neg hz]
      exact ⟨_, mkSample_eq_ok_of hle hsw, rfl⟩
  | true =>
      have hsw : setupWeights gw x true
          (((if limit > 0 then cached.take limit else cached).filterMap
            loadFile).flatten)
          = Except.ok
              (((((if limit > 0 then cached.take limit else cached).filterMap
                  loadFile).flatten).length : ℚ), 1, fun _ => 1) := by
        unfold setupWeights
        rw [if_neg (by simp)]
      exact ⟨_, mkSample_eq_ok_of hle hsw, rfl⟩

/-- Witness for `construction_tolerates_file_failures`: two resolved
files, the first fails to load, the second holds two events; the MC
sample constructs with exactly those two events. -/
theorem construction_tolerates_file_failures_witness :
    ((if (0 : ℕ) > 0 then ["bad.root", "ok.root"].take 0
        else ["bad.root", "ok.root"]).filterMap loadOneBadOneGood ≠ []) ∧
    (∃ s, mkSample false 2 ["bad.root", "ok.root"] 0 loadOneBadOneGood
        (fun _ => (1 : ℚ)) = Except.ok s ∧
      s.events = ((if (0 : ℕ) > 0 then ["bad.root", "ok.root"].take 0
        else ["bad.root", "ok.root"]).filterMap loadOneBadOneGood).flatten) := by
  refine ⟨by decide, ?_⟩
  have hev : ((if (0 : ℕ) > 0 then ["bad.root", "ok.root"].take 0
      else ["bad.root", "ok.root"]).filterMap loadOneBadOneGood).flatten
      = [(), ()] := by decide
  refine construction_tolerates_file_failures false 2 ["bad.root", "ok.root"] 0
    loadOneBadOneGood (fun _ => (1 : ℚ)) (by decide) (fun _ => ?_)
  rw [hev]
  norm_num

end Galapago
